import Mathlib

/-!
Verification of the TrigExplorer core logic: the angle-and-coordinate
derivation engine of the ferris-wheel view (src/types.ts, FerrisWheel
component) and the wave sampler of the plotter view
(src/components/FunctionPlotter.tsx).

JavaScript numbers are modelled as real numbers.  Math.round and toFixed
round to the nearest representative, on a tie picking the larger candidate,
which is exactly Mathlib round x = ⌊x + 1/2⌋ (ECMAScript negates a negative
argument before toFixed, a difference visible only on exact ties, which no
quantity in this development hits).  The result of parseFloat on the text of
an input field is modelled as an Option over the reals: none models NaN
(unparseable text), some v a finite parsed value.
-/

open Real

namespace TrigExplorer

/-- Plot parameters from src/types.ts: amplitude A, angular frequency omega,
phase coefficient phi (a multiple of pi) and vertical offset k. -/
structure PlotParams where
  A : ℝ
  omega : ℝ
  phi : ℝ
  k : ℝ

/-- One sampled chart datum pushed by the FunctionPlotter loop:
points.push({xVal: x, y: ..., standard: ...}). -/
structure SamplePoint where
  xVal : ℝ
  y : ℝ
  standard : ℝ

/-! Ferris-wheel component (src/types.ts). -/

/-- Wheel center constant from the source: CENTER = { x: 250, y: 250 }. -/
noncomputable def CENTER : ℝ × ℝ := (250, 250)

/-- Mathematical atan2: atan2 y x = Complex.arg (x + y·i), with range
(-π, π] and atan2 0 0 = 0, matching JavaScript Math.atan2 on finite
arguments. -/
noncomputable def atan2 (y x : ℝ) : ℝ :=
  Complex.arg ⟨x, y⟩

/-- Embeds updateAngle: x = clientX - rect.left - CENTER.x,
y = rect.top + CENTER.y - clientY (mouse Y inverted to Cartesian),
newAngle = Math.atan2(y, x), then add 2π if negative. -/
noncomputable def updateAngle (clientX clientY rectLeft rectTop : ℝ) : ℝ :=
  let x := clientX - rectLeft - CENTER.1
  let y := rectTop + CENTER.2 - clientY
  let newAngle := atan2 y x
  if newAngle < 0 then newAngle + 2 * π else newAngle

/-- Embeds displayDegrees = Math.round((angle * 180 / Math.PI) * 10) / 10. -/
noncomputable def displayDegrees (angle : ℝ) : ℝ :=
  (round (angle * 180 / π * 10) : ℝ) / 10

/-- Embeds handleDegreeChange: val = parseFloat(text); if val is NaN the
setAngle call is skipped and the previous angle is kept, otherwise the
angle becomes (val * Math.PI) / 180. -/
noncomputable def handleDegreeChange (angle : ℝ) (parsed : Option ℝ) : ℝ :=
  match parsed with
  | none => angle
  | some val => val * π / 180

/-- Truncation toward zero, the integer quotient used by the JavaScript %
operator on finite reals. -/
noncomputable def jsTrunc (x : ℝ) : ℤ :=
  if 0 ≤ x then ⌊x⌋ else ⌈x⌉

/-- JavaScript remainder a % b for finite reals and b ≠ 0:
a - b * trunc(a / b); the result carries the sign of the dividend. -/
noncomputable def jsMod (a b : ℝ) : ℝ :=
  a - b * jsTrunc (a / b)

/-- First half of getQuadrantColor: normalized = angle % (2 * Math.PI);
positiveAngle = normalized < 0 ? normalized + 2 * Math.PI : normalized. -/
noncomputable def positiveAngle (angle : ℝ) : ℝ :=
  let normalized := jsMod angle (2 * π)
  if normalized < 0 then normalized + 2 * π else normalized

/-- Embeds getQuadrantColor: the tailwind text color selected by the
quadrant of the normalized angle. -/
noncomputable def getQuadrantColor (angle : ℝ) : String :=
  if positiveAngle angle < π / 2 then "text-emerald-600"
  else if positiveAngle angle < π then "text-blue-600"
  else if positiveAngle angle < 3 * π / 2 then "text-orange-600"
  else "text-rose-600"

/-- Embeds the tan(θ) display expression of the FerrisWheel info panel:
Math.abs(rawCos) < 0.001 ? "∞" : (rawSin / rawCos).toFixed(4).  The none
value models the "∞" sentinel branch, some the numeric quotient that the
JSX then formats with toFixed(4). -/
noncomputable def tanDisplay (θ : ℝ) : Option ℝ :=
  if |Real.cos θ| < 0.001 then none else some (Real.sin θ / Real.cos θ)

/-! Function-plotter component (src/components/FunctionPlotter.tsx). -/

/-- The defaultParams constant: { A: 1, omega: 1, phi: 0, k: 0 }. -/
noncomputable def defaultParams : PlotParams :=
  { A := 1, omega := 1, phi := 0, k := 0 }

/-- Embeds the A number-field onChange:
setParams({...params, A: parseFloat(text) || 0}).  NaN || 0 evaluates to 0,
so an unparseable text stores 0 (and 0 || 0 is 0, so a parsed value is
stored as itself). -/
noncomputable def onChangeA (p : PlotParams) (parsed : Option ℝ) : PlotParams :=
  { p with A := match parsed with | none => 0 | some v => v }

/-- Embeds the omega number-field onChange, with the same || 0 fallback. -/
noncomputable def onChangeOmega (p : PlotParams) (parsed : Option ℝ) : PlotParams :=
  { p with omega := match parsed with | none => 0 | some v => v }

/-- Embeds the phi number-field onChange, with the same || 0 fallback. -/
noncomputable def onChangePhi (p : PlotParams) (parsed : Option ℝ) : PlotParams :=
  { p with phi := match parsed with | none => 0 | some v => v }

/-- Embeds the k number-field onChange, with the same || 0 fallback. -/
noncomputable def onChangeK (p : PlotParams) (parsed : Option ℝ) : PlotParams :=
  { p with k := match parsed with | none => 0 | some v => v }

/-- Models parseFloat(y.toFixed(3)): y rounded to the nearest thousandth
(parseFloat turns a "-0.000" back into plain zero, so the sign of zero is
immaterial). -/
noncomputable def toFixed3 (y : ℝ) : ℝ :=
  (round (y * 1000) : ℝ) / 1000

/-- The loop start constant: start = -2 * Math.PI. -/
noncomputable def plotStart : ℝ := -2 * π

/-- The loop end constant: end = 2 * Math.PI. -/
noncomputable def plotEnd : ℝ := 2 * π

/-- The loop step constant: step = (end - start) / 200. -/
noncomputable def plotStep : ℝ := (plotEnd - plotStart) / 200

/-- The loop body: one chart datum at abscissa x, with
y = A * Math.sin(omega * x + phi * Math.PI) + k and standard = Math.sin(x),
each re-parsed from its toFixed(3) rendering. -/
noncomputable def samplePoint (p : PlotParams) (x : ℝ) : SamplePoint :=
  { xVal := x
    y := toFixed3 (p.A * Real.sin (p.omega * x + p.phi * π) + p.k)
    standard := toFixed3 (Real.sin x) }

/-- Embeds the sampling loop for (let x = start; x <= end; x += step) as a
fuel-indexed recursion: each unit of fuel funds one guard test.  Over the
reals the guard fails for the first time at x = plotStart + 201 * plotStep,
so any fuel of at least 201 produces the full loop output (lemma
dataPoints_fuel below); the source loop and this recursion agree. -/
noncomputable def sampleLoop (p : PlotParams) : ℕ → ℝ → List SamplePoint
  | 0, _ => []
  | n + 1, x =>
    if x ≤ plotEnd then samplePoint p x :: sampleLoop p n (x + plotStep) else []

/-- The data useMemo value: the full output of the sampling loop started at
plotStart (fuel 202 is slack; see dataPoints_fuel). -/
noncomputable def dataPoints (p : PlotParams) : List SamplePoint :=
  sampleLoop p 202 plotStart

/-- Models toFixed(1) on a real number: sign of the argument, then the
digits of the absolute value rounded to tenths. -/
noncomputable def toFixed1 (x : ℝ) : String :=
  let n : ℤ := round ((if x < 0 then -x else x) * 10)
  (if x < 0 then "-" else "") ++
    toString (n.natAbs / 10) ++ "." ++ toString (n.natAbs % 10)

/-- Embeds formatXAxis: the π-relative tick label with its fixed ordered
tolerance-guarded special cases. -/
noncomputable def formatXAxis (tick : ℝ) : String :=
  let piVal := tick / π
  if |piVal| < 0.01 then "0"
  else if |piVal - 1| < 0.01 then "π"
  else if |piVal + 1| < 0.01 then "-π"
  else if |piVal - 2| < 0.01 then "2π"
  else if |piVal + 2| < 0.01 then "-2π"
  else if |piVal - 0.5| < 0.01 then "π/2"
  else if |piVal + 0.5| < 0.01 then "-π/2"
  else toFixed1 piVal ++ "π"

/-! Helper lemmas shared by the claim theorems. -/

lemma plotStep_eq : plotStep = π / 50 := by
  simp only [plotStep, plotStart, plotEnd]
  ring

lemma grid_le (j : ℕ) (hj : j ≤ 200) : plotStart + j * plotStep ≤ plotEnd := by
  have hπ := Real.pi_pos
  have hjr : (j : ℝ) ≤ 200 := by exact_mod_cast hj
  rw [plotStep_eq]
  simp only [plotStart, plotEnd]
  nlinarith

lemma grid_gt : plotEnd < plotStart + 201 * plotStep := by
  have hπ := Real.pi_pos
  rw [plotStep_eq]
  simp only [plotStart, plotEnd]
  nlinarith

lemma sampleLoop_of_gt (p : PlotParams) (n : ℕ) (x : ℝ) (h : plotEnd < x) :
    sampleLoop p n x = [] := by
  cases n with
  | zero => rfl
  | succ n => simp only [sampleLoop, if_neg (not_le.mpr h)]

lemma sampleLoop_of_le (p : PlotParams) (n : ℕ) (x : ℝ) (h : x ≤ plotEnd) :
    sampleLoop p (n + 1) x = samplePoint p x :: sampleLoop p n (x + plotStep) := by
  simp only [sampleLoop, if_pos h]

lemma sampleLoop_from (p : PlotParams) :
    ∀ m j n : ℕ, j + m = 201 → m ≤ n →
      sampleLoop p n (plotStart + (j : ℝ) * plotStep) =
        (List.range m).map
          (fun i : ℕ => samplePoint p (plotStart + ((j + i : ℕ) : ℝ) * plotStep)) := by
  intro m
  induction m with
  | zero =>
    intro j n hj _
    have hj201 : j = 201 := by omega
    subst hj201
    simp only [List.range_zero, List.map_nil]
    exact sampleLoop_of_gt p n _ (by exact_mod_cast grid_gt)
  | succ m ih =>
    intro j n hj hn
    obtain ⟨k, rfl⟩ : ∃ k, n = k + 1 := ⟨n - 1, by omega⟩
    rw [sampleLoop_of_le p k _ (grid_le j (by omega))]
    have hx : plotStart + (j : ℝ) * plotStep + plotStep =
        plotStart + ((j + 1 : ℕ) : ℝ) * plotStep := by
      push_cast
      ring
    rw [hx, ih (j + 1) k (by omega) (by omega)]
    rw [List.range_succ_eq_map, List.map_cons, List.map_map]
    congr 1
    apply List.map_congr_left
    intro i _
    simp only [Function.comp_apply, Nat.succ_eq_add_one]
    have hidx : j + 1 + i = j + (i + 1) := by omega
    rw [hidx]

lemma dataPoints_eq (p : PlotParams) :
    dataPoints p =
      (List.range 201).map
        (fun i : ℕ => samplePoint p (plotStart + (i : ℝ) * plotStep)) := by
  have h := sampleLoop_from p 201 0 202 (by omega) (by omega)
  simpa using h

lemma dataPoints_fuel (p : PlotParams) (n : ℕ) (hn : 201 ≤ n) :
    sampleLoop p n plotStart = dataPoints p := by
  have h := sampleLoop_from p 201 0 n (by omega) hn
  have h2 := sampleLoop_from p 201 0 202 (by omega) (by omega)
  simp only [Nat.cast_zero, zero_mul, add_zero, zero_add] at h h2
  rw [dataPoints, h, h2]

lemma jsMod_bounds (a b : ℝ) (hb : 0 < b) : -b < jsMod a b ∧ jsMod a b < b := by
  have hbne : b ≠ 0 := ne_of_gt hb
  have hab : a / b * b = a := div_mul_cancel₀ a hbne
  simp only [jsMod, jsTrunc]
  by_cases h : 0 ≤ a / b
  · rw [if_pos h]
    have h1 : (⌊a / b⌋ : ℝ) ≤ a / b := Int.floor_le _
    have h2 : a / b < ⌊a / b⌋ + 1 := Int.lt_floor_add_one _
    have e1 : b * (⌊a / b⌋ : ℝ) ≤ b * (a / b) := by
      exact mul_le_mul_of_nonneg_left h1 hb.le
    have e2 : b * (a / b) < b * ((⌊a / b⌋ : ℝ) + 1) := by
      exact mul_lt_mul_of_pos_left h2 hb
    have e3 : b * (a / b) = a := by rw [mul_comm]; exact hab
    constructor <;> nlinarith
  · rw [if_neg h]
    have h1 : a / b ≤ (⌈a / b⌉ : ℝ) := Int.le_ceil _
    have h2 : (⌈a / b⌉ : ℝ) < a / b + 1 := Int.ceil_lt_add_one _
    have e1 : b * (a / b) ≤ b * (⌈a / b⌉ : ℝ) := by
      exact mul_le_mul_of_nonneg_left h1 hb.le
    have e2 : b * (⌈a / b⌉ : ℝ) < b * (a / b + 1) := by
      exact mul_lt_mul_of_pos_left h2 hb
    have e3 : b * (a / b) = a := by rw [mul_comm]; exact hab
    constructor <;> nlinarith

lemma positiveAngle_mem (θ : ℝ) :
    0 ≤ positiveAngle θ ∧ positiveAngle θ < 2 * π := by
  have hb : (0 : ℝ) < 2 * π := by linarith [Real.pi_pos]
  obtain ⟨hlo, hhi⟩ := jsMod_bounds θ (2 * π) hb
  simp only [positiveAngle]
  by_cases h : jsMod θ (2 * π) < 0
  · rw [if_pos h]
    constructor <;> linarith
  · rw [if_neg h]
    exact ⟨not_lt.mp h, hhi⟩

lemma positiveAngle_of_mem (θ : ℝ) (h0 : 0 ≤ θ) (h2 : θ < 2 * π) :
    positiveAngle θ = θ := by
  have hb : (0 : ℝ) < 2 * π := by linarith [Real.pi_pos]
  have hq0 : (0 : ℝ) ≤ θ / (2 * π) := div_nonneg h0 hb.le
  have hq1 : θ / (2 * π) < 1 := (div_lt_one hb).mpr h2
  have hfloor : ⌊θ / (2 * π)⌋ = 0 := by
    rw [Int.floor_eq_zero_iff]
    exact Set.mem_Ico.mpr ⟨hq0, hq1⟩
  have htr : jsTrunc (θ / (2 * π)) = 0 := by
    rw [jsTrunc, if_pos hq0, hfloor]
  have hmod : jsMod θ (2 * π) = θ := by
    rw [jsMod, htr]
    push_cast
    ring
  simp only [positiveAngle, hmod]
  rw [if_neg (not_lt.mpr h0)]

lemma getQuadrantColor_eq (θ : ℝ) (h0 : 0 ≤ θ) (h2 : θ < 2 * π) :
    getQuadrantColor θ =
      if θ < π / 2 then "text-emerald-600"
      else if θ < π then "text-blue-600"
      else if θ < 3 * π / 2 then "text-orange-600"
      else "text-rose-600" := by
  simp only [getQuadrantColor, positiveAngle_of_mem θ h0 h2]

lemma sin_plotStart : Real.sin plotStart = 0 := by
  have h : plotStart = -(2 * π) := by
    rw [plotStart]
    ring
  rw [h, Real.sin_neg, Real.sin_two_pi, neg_zero]

lemma toFixed3_zero : toFixed3 0 = 0 := by
  simp [toFixed3]

lemma toFixed3_three : toFixed3 3 = 3 := by
  rw [toFixed3, round_eq]
  norm_num

lemma samplePoint_default_start :
    samplePoint defaultParams plotStart = { xVal := -2 * π, y := 0, standard := 0 } := by
  simp only [samplePoint, defaultParams, one_mul, zero_mul, add_zero, sin_plotStart,
    toFixed3_zero]
  rw [plotStart]

lemma start_mem_dataPoints :
    samplePoint defaultParams plotStart ∈ dataPoints defaultParams := by
  rw [dataPoints_eq]
  refine List.mem_map.mpr ⟨0, ?_, ?_⟩
  · simp
  · norm_num

/-! Claim theorems. -/

/-- C1 counterexample: with the default parameters (A = 1), an unparseable
text in the A field stores A = 0 instead of keeping the previous value, so
the WaveParams value does change. -/
theorem c1_counterexample :
    onChangeA defaultParams none ≠ defaultParams ∧
    (onChangeA defaultParams none).A = 0 ∧ defaultParams.A = 1 := by
  refine ⟨fun h => ?_, rfl, rfl⟩
  have hA : (onChangeA defaultParams none).A = defaultParams.A := by rw [h]
  simp only [onChangeA, defaultParams] at hA
  norm_num at hA

/-- C1 amended: on unparseable (NaN) text, the degree input keeps the
previous angle unchanged, but each of the four wave-parameter inputs
stores 0 in that parameter (the other three parameters unchanged) instead
of retaining the previous value. -/
theorem c1_nan_handling (angle : ℝ) (p : PlotParams) :
    handleDegreeChange angle none = angle ∧
    onChangeA p none = { p with A := 0 } ∧
    onChangeOmega p none = { p with omega := 0 } ∧
    onChangePhi p none = { p with phi := 0 } ∧
    onChangeK p none = { p with k := 0 } :=
  ⟨rfl, rfl, rfl, rfl, rfl⟩

/-- C4: the tan(θ) display returns the undefined/infinite sentinel exactly
when the absolute cosine is below 0.001, and otherwise the numeric quotient
sin θ / cos θ; being a total function, the near-zero-cosine case never
fails. -/
theorem c4_tangent (θ : ℝ) :
    (tanDisplay θ = none ↔ |Real.cos θ| < 0.001) ∧
    (¬ |Real.cos θ| < 0.001 → tanDisplay θ = some (Real.sin θ / Real.cos θ)) := by
  constructor
  · constructor
    · intro h
      by_contra hc
      simp only [tanDisplay, if_neg hc] at h
      exact Option.some_ne_none _ h
    · intro h
      simp only [tanDisplay, if_pos h]
  · intro h
    simp only [tanDisplay, if_neg h]

/-- C4 witness: at θ = 0 the cosine is 1, the guard fails, and the numeric
quotient is returned. -/
theorem c4_witness :
    ¬ |Real.cos 0| < 0.001 ∧ tanDisplay 0 = some (Real.sin 0 / Real.cos 0) := by
  have h : ¬ |Real.cos 0| < 0.001 := by
    rw [Real.cos_zero]
    norm_num
  exact ⟨h, (c4_tangent 0).2 h⟩

/-- C7: for θ in [0, 2π), converting the angle to display degrees (rounded
to one decimal place) and parsing those degrees back yields an angle within
0.1 degrees (0.1·π/180 radians) of θ. -/
theorem c7_round_trip (θ : ℝ) (h0 : 0 ≤ θ) (h2 : θ < 2 * π) :
    |handleDegreeChange θ (some (displayDegrees θ)) - θ| ≤ 0.1 * (π / 180) := by
  have hπ := Real.pi_pos
  have hne := Real.pi_ne_zero
  have key : handleDegreeChange θ (some (displayDegrees θ)) - θ =
      ((round (θ * 180 / π * 10) : ℝ) - θ * 180 / π * 10) * (π / 1800) := by
    simp only [handleDegreeChange, displayDegrees]
    field_simp
    ring
  rw [key, abs_mul]
  have h1 : |(round (θ * 180 / π * 10) : ℝ) - θ * 180 / π * 10| ≤ 1 / 2 := by
    rw [abs_sub_comm]
    exact abs_sub_round _
  have h2 : |π / 1800| = π / 1800 := abs_of_pos (by positivity)
  rw [h2]
  nlinarith

/-- C7 witness: the round trip at θ = 0 lands within the tolerance. -/
theorem c7_witness :
    (0 : ℝ) ≤ 0 ∧ (0 : ℝ) < 2 * π ∧
      |handleDegreeChange 0 (some (displayDegrees 0)) - 0| ≤ 0.1 * (π / 180) := by
  have h2 : (0 : ℝ) < 2 * π := by linarith [Real.pi_pos]
  exact ⟨le_refl 0, h2, c7_round_trip 0 (le_refl 0) h2⟩

/-- C10: for every real angle, the normalization inside getQuadrantColor
(remainder modulo 2π, plus 2π if negative) lands in [0, 2π), and the
function returns exactly one of the four quadrant colors. -/
theorem c10_total (θ : ℝ) :
    (0 ≤ positiveAngle θ ∧ positiveAngle θ < 2 * π) ∧
    (getQuadrantColor θ = "text-emerald-600" ∨
     getQuadrantColor θ = "text-blue-600" ∨
     getQuadrantColor θ = "text-orange-600" ∨
     getQuadrantColor θ = "text-rose-600") := by
  refine ⟨positiveAngle_mem θ, ?_⟩
  by_cases h1 : positiveAngle θ < π / 2
  · left
    simp only [getQuadrantColor, if_pos h1]
  by_cases h2 : positiveAngle θ < π
  · right; left
    simp only [getQuadrantColor, if_neg h1, if_pos h2]
  by_cases h3 : positiveAngle θ < 3 * π / 2
  · right; right; left
    simp only [getQuadrantColor, if_neg h1, if_neg h2, if_pos h3]
  · right; right; right
    simp only [getQuadrantColor, if_neg h1, if_neg h2, if_neg h3]

/-- C2: the sampling loop for the default domain [-2π, 2π] in 200 equal
steps produces exactly 201 points whose abscissas step from -2π to 2π
inclusive in increments of π/50, and the first point, at x = -2π, has
transformedY = 0 under the default parameters. -/
theorem c2_sample_grid :
    (dataPoints defaultParams).length = 201 ∧
    (dataPoints defaultParams).map SamplePoint.xVal =
      (List.range 201).map (fun i : ℕ => -2 * π + (i : ℝ) * (π / 50)) ∧
    (dataPoints defaultParams).head? =
      some { xVal := -2 * π, y := 0, standard := 0 } := by
  refine ⟨?_, ?_, ?_⟩
  · rw [dataPoints_eq]
    simp
  · rw [dataPoints_eq, List.map_map]
    apply List.map_congr_left
    intro i _
    simp only [Function.comp_apply, samplePoint]
    rw [plotStart, plotStep_eq]
  · rw [dataPoints_eq, List.range_succ_eq_map 200, List.map_cons]
    have hx : plotStart + ((0 : ℕ) : ℝ) * plotStep = plotStart := by norm_num
    rw [hx]
    simp only [List.head?_cons]
    rw [samplePoint_default_start]

/-- C8: every sample produced by the loop carries
transformedY = toFixed3(A·sin(ω·x + φ·π) + k) and
referenceY = toFixed3(sin x) at its own abscissa; in particular, for
parameters A = 2, ω = 1, φ = 0.5, k = 1 the point at x = 0 (index 100) has
transformedY = 3. -/
theorem c8_sample_values :
    (∀ (p : PlotParams), ∀ pt ∈ dataPoints p,
        pt.y = toFixed3 (p.A * Real.sin (p.omega * pt.xVal + p.phi * π) + p.k) ∧
        pt.standard = toFixed3 (Real.sin pt.xVal)) ∧
    (dataPoints { A := 2, omega := 1, phi := 0.5, k := 1 })[100]? =
      some { xVal := 0, y := 3, standard := 0 } := by
  constructor
  · intro p pt hpt
    rw [dataPoints_eq] at hpt
    obtain ⟨i, _, rfl⟩ := List.mem_map.mp hpt
    exact ⟨rfl, rfl⟩
  · rw [dataPoints_eq, List.getElem?_map, List.getElem?_range (by norm_num)]
    have hx : plotStart + ((100 : ℕ) : ℝ) * plotStep = 0 := by
      rw [plotStart, plotStep_eq]
      push_cast
      ring
    rw [Option.map_some', hx]
    simp only [samplePoint, mul_zero, one_mul, zero_add, Real.sin_zero, toFixed3_zero]
    have hsin : Real.sin ((0.5 : ℝ) * π) = 1 := by
      rw [show (0.5 : ℝ) * π = π / 2 by ring, Real.sin_pi_div_two]
    rw [hsin]
    norm_num [toFixed3_three]

/-- C8 witness: the general clause applied to the first default sample. -/
theorem c8_witness :
    (samplePoint defaultParams plotStart).standard =
      toFixed3 (Real.sin (samplePoint defaultParams plotStart).xVal) :=
  (c8_sample_values.1 defaultParams _ start_mem_dataPoints).2

/-- C9: the sampling grid and the reference curve sin(x) do not depend on
the wave parameters: any two parameter values yield pointwise identical
xVal sequences and pointwise identical referenceY sequences. -/
theorem c9_reference_independent (p1 p2 : PlotParams) :
    (dataPoints p1).map SamplePoint.xVal = (dataPoints p2).map SamplePoint.xVal ∧
    (dataPoints p1).map SamplePoint.standard =
      (dataPoints p2).map SamplePoint.standard := by
  rw [dataPoints_eq p1, dataPoints_eq p2]
  simp only [List.map_map]
  constructor <;>
  · apply List.map_congr_left
    intro i _
    simp only [Function.comp_apply, samplePoint]

lemma CENTER_fst : CENTER.1 = 250 := rfl

lemma CENTER_snd : CENTER.2 = 250 := rfl

lemma atan2_zero_pos (d : ℝ) (hd : 0 < d) : atan2 0 d = 0 := by
  rw [atan2]
  have h : (⟨d, 0⟩ : ℂ) = (d : ℂ) := by
    apply Complex.ext <;> simp
  rw [h]
  exact Complex.arg_ofReal_of_nonneg hd.le

lemma atan2_pos_zero (d : ℝ) (hd : 0 < d) : atan2 d 0 = π / 2 := by
  rw [atan2]
  have h : (⟨0, d⟩ : ℂ) = (d : ℂ) * Complex.I := by
    apply Complex.ext <;> simp
  rw [h, Complex.arg_real_mul _ hd, Complex.arg_I]

lemma atan2_zero_neg (d : ℝ) (hd : 0 < d) : atan2 0 (-d) = π := by
  rw [atan2]
  have h : (⟨-d, 0⟩ : ℂ) = ((-d : ℝ) : ℂ) := by
    apply Complex.ext <;> simp
  rw [h]
  exact Complex.arg_ofReal_of_neg (by linarith)

lemma atan2_neg_zero (d : ℝ) (hd : 0 < d) : atan2 (-d) 0 = -(π / 2) := by
  rw [atan2]
  have h : (⟨0, -d⟩ : ℂ) = (d : ℂ) * -Complex.I := by
    apply Complex.ext <;> simp
  rw [h, Complex.arg_real_mul _ hd, Complex.arg_neg_I]

lemma updateAngle_mem (clientX clientY rectLeft rectTop : ℝ) :
    0 ≤ updateAngle clientX clientY rectLeft rectTop ∧
      updateAngle clientX clientY rectLeft rectTop < 2 * π := by
  have hπ := Real.pi_pos
  simp only [updateAngle]
  have h1 : -π < atan2 (rectTop + CENTER.2 - clientY) (clientX - rectLeft - CENTER.1) := by
    rw [atan2]
    exact Complex.neg_pi_lt_arg _
  have h2 : atan2 (rectTop + CENTER.2 - clientY) (clientX - rectLeft - CENTER.1) ≤ π := by
    rw [atan2]
    exact Complex.arg_le_pi _
  by_cases h : atan2 (rectTop + CENTER.2 - clientY) (clientX - rectLeft - CENTER.1) < 0
  · rw [if_pos h]
    constructor <;> linarith
  · rw [if_neg h]
    exact ⟨not_lt.mp h, by linarith⟩

/-- C5: the pointer-to-angle conversion flips the vertical screen offset,
takes atan2, and adds 2π when negative, so the result always lies in
[0, 2π); a pointer at distance d directly right of the wheel center maps to
angle 0, directly above to π/2, directly left to π, and directly below to
3π/2 (center in client coordinates: (rectLeft + 250, rectTop + 250)). -/
theorem c5_pointer_angle (rectLeft rectTop d : ℝ) (hd : 0 < d) :
    updateAngle (rectLeft + 250 + d) (rectTop + 250) rectLeft rectTop = 0 ∧
    updateAngle (rectLeft + 250) (rectTop + 250 - d) rectLeft rectTop = π / 2 ∧
    updateAngle (rectLeft + 250 - d) (rectTop + 250) rectLeft rectTop = π ∧
    updateAngle (rectLeft + 250) (rectTop + 250 + d) rectLeft rectTop = 3 * π / 2 ∧
    (∀ clientX clientY : ℝ,
      0 ≤ updateAngle clientX clientY rectLeft rectTop ∧
      updateAngle clientX clientY rectLeft rectTop < 2 * π) := by
  have hπ := Real.pi_pos
  refine ⟨?_, ?_, ?_, ?_, fun clientX clientY => updateAngle_mem _ _ _ _⟩
  · simp only [updateAngle, CENTER_fst, CENTER_snd]
    rw [show rectLeft + 250 + d - rectLeft - (250 : ℝ) = d by ring,
      show rectTop + (250 : ℝ) - (rectTop + 250) = 0 by ring,
      atan2_zero_pos d hd, if_neg (lt_irrefl 0)]
  · simp only [updateAngle, CENTER_fst, CENTER_snd]
    rw [show rectLeft + 250 - rectLeft - (250 : ℝ) = 0 by ring,
      show rectTop + (250 : ℝ) - (rectTop + 250 - d) = d by ring,
      atan2_pos_zero d hd, if_neg (not_lt.mpr (by positivity))]
  · simp only [updateAngle, CENTER_fst, CENTER_snd]
    rw [show rectLeft + 250 - d - rectLeft - (250 : ℝ) = -d by ring,
      show rectTop + (250 : ℝ) - (rectTop + 250) = 0 by ring,
      atan2_zero_neg d hd, if_neg (not_lt.mpr hπ.le)]
  · simp only [updateAngle, CENTER_fst, CENTER_snd]
    rw [show rectLeft + 250 - rectLeft - (250 : ℝ) = 0 by ring,
      show rectTop + (250 : ℝ) - (rectTop + 250 + d) = -d by ring,
      atan2_neg_zero d hd, if_pos (by linarith : -(π / 2) < 0)]
    ring

/-- C5 witness: with the bounding rectangle at the origin, a pointer one
pixel to the right of the center yields angle 0. -/
theorem c5_witness :
    (0 : ℝ) < 1 ∧ updateAngle (0 + 250 + 1) (0 + 250) 0 0 = 0 :=
  ⟨by norm_num, (c5_pointer_angle 0 0 1 (by norm_num)).1⟩

/-- C6: on [0, 2π) the quadrant coloring realizes the four half-open
quarter intervals — [0, π/2) emerald (Q1), [π/2, π) blue (Q2), [π, 3π/2)
orange (Q3), [3π/2, 2π) rose (Q4) — with no gaps or overlaps, and each
boundary value 0, π/2, π, 3π/2 is classified into the quadrant that starts
there. -/
theorem c6_quadrant_partition :
    (∀ θ : ℝ, 0 ≤ θ → θ < 2 * π →
      (getQuadrantColor θ = "text-emerald-600" ↔ θ < π / 2) ∧
      (getQuadrantColor θ = "text-blue-600" ↔ π / 2 ≤ θ ∧ θ < π) ∧
      (getQuadrantColor θ = "text-orange-600" ↔ π ≤ θ ∧ θ < 3 * π / 2) ∧
      (getQuadrantColor θ = "text-rose-600" ↔ 3 * π / 2 ≤ θ)) ∧
    getQuadrantColor 0 = "text-emerald-600" ∧
    getQuadrantColor (π / 2) = "text-blue-600" ∧
    getQuadrantColor π = "text-orange-600" ∧
    getQuadrantColor (3 * π / 2) = "text-rose-600" := by
  have hπ := Real.pi_pos
  have hgen : ∀ θ : ℝ, 0 ≤ θ → θ < 2 * π →
      (getQuadrantColor θ = "text-emerald-600" ↔ θ < π / 2) ∧
      (getQuadrantColor θ = "text-blue-600" ↔ π / 2 ≤ θ ∧ θ < π) ∧
      (getQuadrantColor θ = "text-orange-600" ↔ π ≤ θ ∧ θ < 3 * π / 2) ∧
      (getQuadrantColor θ = "text-rose-600" ↔ 3 * π / 2 ≤ θ) := by
    intro θ h0 h2
    rw [getQuadrantColor_eq θ h0 h2]
    by_cases hq1 : θ < π / 2
    · rw [if_pos hq1]
      refine ⟨iff_of_true rfl hq1, ?_, ?_, ?_⟩
      · exact iff_of_false (by decide) fun hh => absurd hh.1 (not_le.mpr hq1)
      · exact iff_of_false (by decide) fun hh => by linarith [hh.1]
      · exact iff_of_false (by decide) fun hh => by linarith
    by_cases hq2 : θ < π
    · rw [if_neg hq1, if_pos hq2]
      refine ⟨iff_of_false (by decide) hq1, iff_of_true rfl ⟨not_lt.mp hq1, hq2⟩, ?_, ?_⟩
      · exact iff_of_false (by decide) fun hh => absurd hh.1 (not_le.mpr hq2)
      · exact iff_of_false (by decide) fun hh => by linarith
    by_cases hq3 : θ < 3 * π / 2
    · rw [if_neg hq1, if_neg hq2, if_pos hq3]
      refine ⟨?_, ?_, iff_of_true rfl ⟨not_lt.mp hq2, hq3⟩, ?_⟩
      · exact iff_of_false (by decide) fun hh => by linarith [not_lt.mp hq2]
      · exact iff_of_false (by decide) fun hh => hq2 hh.2
      · exact iff_of_false (by decide) (not_le.mpr hq3)
    · rw [if_neg hq1, if_neg hq2, if_neg hq3]
      refine ⟨?_, ?_, ?_, iff_of_true rfl (not_lt.mp hq3)⟩
      · exact iff_of_false (by decide) fun hh => by linarith [not_lt.mp hq3]
      · exact iff_of_false (by decide) fun hh => by linarith [not_lt.mp hq3, hh.2]
      · exact iff_of_false (by decide) fun hh => hq3 hh.2
  refine ⟨hgen, ?_, ?_, ?_, ?_⟩
  · exact (hgen 0 le_rfl (by linarith)).1.mpr (by linarith)
  · exact (hgen (π / 2) (by positivity) (by linarith)).2.1.mpr ⟨le_rfl, by linarith⟩
  · exact (hgen π (by positivity) (by linarith)).2.2.1.mpr ⟨le_rfl, by linarith⟩
  · exact (hgen (3 * π / 2) (by positivity) (by linarith)).2.2.2.mpr le_rfl

/-- C6 witness: the general clause applied at θ = 0. -/
theorem c6_witness :
    (0 : ℝ) ≤ 0 ∧ (0 : ℝ) < 2 * π ∧
      (getQuadrantColor 0 = "text-emerald-600" ↔ (0 : ℝ) < π / 2) := by
  have h2 : (0 : ℝ) < 2 * π := by linarith [Real.pi_pos]
  exact ⟨le_rfl, h2, (c6_quadrant_partition.1 0 le_rfl h2).1⟩

lemma toFixed1_three : toFixed1 3 = "3.0" := by
  simp only [toFixed1]
  rw [if_neg (by norm_num : ¬ (3 : ℝ) < 0), if_neg (by norm_num : ¬ (3 : ℝ) < 0)]
  rw [show round ((3 : ℝ) * 10) = 30 by rw [round_eq]; norm_num]
  decide

/-- C3: the axis tick label checks its special cases in order, each guarded
by a coefficient within 0.01 of the target multiple of π — zero, then π,
-π, 2π, -2π, π/2, -π/2 — and otherwise prints the coefficient x/π to one
decimal place followed by π; in particular the label of π is the string π,
the label of 0 is the string 0, and the label of 3π is the string 3.0π. -/
theorem c3_axis_labels :
    formatXAxis π = "π" ∧ formatXAxis 0 = "0" ∧ formatXAxis (3 * π) = "3.0π" ∧
    (∀ x : ℝ, |x / π| < 0.01 → formatXAxis x = "0") ∧
    (∀ x : ℝ, ¬ |x / π| < 0.01 → |x / π - 1| < 0.01 → formatXAxis x = "π") ∧
    (∀ x : ℝ, ¬ |x / π| < 0.01 → ¬ |x / π - 1| < 0.01 → |x / π + 1| < 0.01 →
      formatXAxis x = "-π") ∧
    (∀ x : ℝ, ¬ |x / π| < 0.01 → ¬ |x / π - 1| < 0.01 → ¬ |x / π + 1| < 0.01 →
      |x / π - 2| < 0.01 → formatXAxis x = "2π") ∧
    (∀ x : ℝ, ¬ |x / π| < 0.01 → ¬ |x / π - 1| < 0.01 → ¬ |x / π + 1| < 0.01 →
      ¬ |x / π - 2| < 0.01 → |x / π + 2| < 0.01 → formatXAxis x = "-2π") ∧
    (∀ x : ℝ, ¬ |x / π| < 0.01 → ¬ |x / π - 1| < 0.01 → ¬ |x / π + 1| < 0.01 →
      ¬ |x / π - 2| < 0.01 → ¬ |x / π + 2| < 0.01 → |x / π - 0.5| < 0.01 →
      formatXAxis x = "π/2") ∧
    (∀ x : ℝ, ¬ |x / π| < 0.01 → ¬ |x / π - 1| < 0.01 → ¬ |x / π + 1| < 0.01 →
      ¬ |x / π - 2| < 0.01 → ¬ |x / π + 2| < 0.01 → ¬ |x / π - 0.5| < 0.01 →
      |x / π + 0.5| < 0.01 → formatXAxis x = "-π/2") ∧
    (∀ x : ℝ, ¬ |x / π| < 0.01 → ¬ |x / π - 1| < 0.01 → ¬ |x / π + 1| < 0.01 →
      ¬ |x / π - 2| < 0.01 → ¬ |x / π + 2| < 0.01 → ¬ |x / π - 0.5| < 0.01 →
      ¬ |x / π + 0.5| < 0.01 → formatXAxis x = toFixed1 (x / π) ++ "π") := by
  refine ⟨?_, ?_, ?_, ?_, ?_, ?_, ?_, ?_, ?_, ?_, ?_⟩
  · simp only [formatXAxis]
    rw [div_self Real.pi_ne_zero]
    norm_num
  · simp only [formatXAxis]
    rw [zero_div]
    norm_num
  · have h3 : 3 * π / π = 3 := by field_simp
    simp only [formatXAxis]
    rw [h3]
    norm_num [abs_lt]
    rw [toFixed1_three]
    decide
  · intro x h0
    simp only [formatXAxis]
    rw [if_pos h0]
  · intro x h0 h1
    simp only [formatXAxis]
    rw [if_neg h0, if_pos h1]
  · intro x h0 h1 h2
    simp only [formatXAxis]
    rw [if_neg h0, if_neg h1, if_pos h2]
  · intro x h0 h1 h2 h3
    simp only [formatXAxis]
    rw [if_neg h0, if_neg h1, if_neg h2, if_pos h3]
  · intro x h0 h1 h2 h3 h4
    simp only [formatXAxis]
    rw [if_neg h0, if_neg h1, if_neg h2, if_neg h3, if_pos h4]
  · intro x h0 h1 h2 h3 h4 h5
    simp only [formatXAxis]
    rw [if_neg h0, if_neg h1, if_neg h2, if_neg h3, if_neg h4, if_pos h5]
  · intro x h0 h1 h2 h3 h4 h5 h6
    simp only [formatXAxis]
    rw [if_neg h0, if_neg h1, if_neg h2, if_neg h3, if_neg h4, if_neg h5, if_pos h6]
  · intro x h0 h1 h2 h3 h4 h5 h6
    simp only [formatXAxis]
    rw [if_neg h0, if_neg h1, if_neg h2, if_neg h3, if_neg h4, if_neg h5, if_neg h6]

/-- C3 witness: the near-zero clause applied at x = 0. -/
theorem c3_witness : |(0 : ℝ) / π| < 0.01 ∧ formatXAxis 0 = "0" := by
  have h : |(0 : ℝ) / π| < 0.01 := by
    rw [zero_div]
    norm_num
  exact ⟨h, c3_axis_labels.2.2.2.1 0 h⟩

end TrigExplorer
